import Mathlib

/-!
Verification development for the broker request pipeline.

The definitions below are a shallow embedding of the Go sources:
`cmd/broker/metric/metric.go` (metric key normalization, metric registry,
publish operations), and the middleware chain assembled in `main`
(limiter, requestid, identity cache, logging/metrics, health handler).
The identity cache embeds the behaviour of `hashicorp/golang-lru/v2/simplelru`
as consumed by `main` (`Contains` / `Get` / `Add`), and `goParseInt64`
embeds `strconv.ParseInt(s, 10, 64)` as consumed by the `CACHE_SIZE` parsing.
-/

/-- The character class kept by the metric-name regular expression:
`metric.go` compiles `[^_A-Za-z]+` and replaces every match with the empty
string, so exactly underscores and ASCII letters survive. -/
def isIdentChar (ch : Char) : Bool :=
  ch = '_' || ('A' ≤ ch && ch ≤ 'Z') || ('a' ≤ ch && ch ≤ 'z')

/-- `metricNameRegex.ReplaceAllString s ""`: delete every character outside
`[_A-Za-z]` from `s`. -/
def stripNonIdent (s : String) : String :=
  String.mk (s.data.filter isIdentChar)

/-- `MetricPublisher.GetMetricName`: strip `"<method>_<path>"` down to the
allowed identifier charset. -/
def GetMetricName (method path : String) : String :=
  stripNonIdent (method ++ "_" ++ path)

/-- Metric name constants from `metric.go`. -/
def HttpRequestCountMetricName : String := "http_request_count"

/-- Millisecond duration histogram name constant from `metric.go`. -/
def HttpRequestDurationMetricName : String := "http_request_duration_ms"

/-- Microsecond duration histogram name constant from `metric.go`. -/
def HttpRequestDurationMicroMetricName : String := "http_request_duration_micro"

/-- A registered metric: a monotone counter, or a histogram with fixed
bucket boundaries and the multiset of observed values (all values observed
by this program are integral millisecond/microsecond durations). -/
inductive Metric where
  | counter (count : Nat)
  | histogram (buckets : List Nat) (observations : List Nat)
deriving DecidableEq

/-- The `metricMap` field of `MetricPublisher`: a string-keyed map, embedded
as an association list without duplicate keys (Go map semantics). -/
abbrev Registry : Type := List (String × Metric)

/-- Go map read `metricMap[key]`. -/
def lookupMetric : Registry → String → Option Metric
  | [], _ => none
  | e :: rest, k => if e.1 = k then some e.2 else lookupMetric rest k

/-- Key membership in the registry. -/
def hasKey (reg : Registry) (k : String) : Bool :=
  (lookupMetric reg k).isSome

/-- Replace the value stored under `k` (first occurrence), leaving the
registry unchanged when `k` is absent. -/
def setMetric : Registry → String → Metric → Registry
  | [], _, _ => []
  | e :: rest, k, m => if e.1 = k then (e.1, m) :: rest else e :: setMetric rest k m

/-- Go map write `metricMap[key] = m`: overwrite when present, add when
absent. -/
def insertMetric (reg : Registry) (k : String) (m : Metric) : Registry :=
  if hasKey reg k then setMetric reg k m else (k, m) :: reg

/-- `MetricPublisher.InsertCounter`: register a fresh counter (Prometheus
counters start at 0) under `name`. The help text carries no semantics and
is not modelled. -/
def InsertCounter (reg : Registry) (name : String) : Registry :=
  insertMetric reg name (Metric.counter 0)

/-- `MetricPublisher.InsertHistogram`: register a fresh histogram with the
given bucket boundaries and no observations. -/
def InsertHistogram (reg : Registry) (name : String) (buckets : List Nat) : Registry :=
  insertMetric reg name (Metric.histogram buckets [])

/-- The fixed latency bucket boundaries used by `Initialize`. -/
def defaultBuckets : List Nat := [1, 2, 4, 8, 10, 25, 50, 100, 250, 500, 1000]

/-- `MetricPublisher.Initialize`: for every registered route `(method, path)`
compute the stripped key and register one request-count counter and one
millisecond-duration histogram. Note: no metric is registered under the
`http_request_duration_micro` prefix. -/
def Initialize (reg : Registry) (routes : List (String × String)) : Registry :=
  routes.foldl
    (fun r mp =>
      let sfx := stripNonIdent (mp.1 ++ "_" ++ mp.2)
      let r1 := InsertCounter r (HttpRequestCountMetricName ++ "_" ++ sfx)
      InsertHistogram r1 (HttpRequestDurationMetricName ++ "_" ++ sfx) defaultBuckets)
    reg

/-- `MetricPublisher.PublishCounter`: look up `prefix_<stripped route>`;
absent keys are a silent no-op; a present counter is incremented; a present
non-counter would make the Go type assertion `m.(prometheus.Counter)` panic,
embedded as `none`. -/
def PublishCounter (reg : Registry) (pfx method path : String) : Option Registry :=
  match lookupMetric reg (pfx ++ "_" ++ GetMetricName method path) with
  | none => some reg
  | some (Metric.counter n) =>
      some (insertMetric reg (pfx ++ "_" ++ GetMetricName method path) (Metric.counter (n + 1)))
  | some (Metric.histogram _ _) => none

/-- `MetricPublisher.GetHistogram` (invoked from `main` under the name
`PublishHistogram`): look up `prefix_<stripped route>`; absent keys are a
silent no-op; a present histogram records the observation; a present
non-histogram would make the Go type assertion panic, embedded as `none`. -/
def GetHistogram (reg : Registry) (pfx method path : String) (value : Nat) : Option Registry :=
  match lookupMetric reg (pfx ++ "_" ++ GetMetricName method path) with
  | none => some reg
  | some (Metric.counter _) => none
  | some (Metric.histogram bs obs) =>
      some (insertMetric reg (pfx ++ "_" ++ GetMetricName method path)
        (Metric.histogram bs (obs ++ [value])))

/-- First entry whose key is `k` in the identity cache's recency list. -/
def findEntry : List (String × String) → String → Option (String × String)
  | [], _ => none
  | e :: rest, k => if e.1 = k then some e else findEntry rest k

/-- Remove the first entry whose key is `k`. -/
def removeKey : List (String × String) → String → List (String × String)
  | [], _ => []
  | e :: rest, k => if e.1 = k then rest else e :: removeKey rest k

/-- The identity cache built by `simplelru.NewLRU[string, string]`: a
capacity bound and the recency list, head = most-recently-used. -/
structure LRU where
  capacity : Nat
  entries : List (String × String)
deriving DecidableEq

/-- `simplelru` `Contains`: membership test with no recency update. -/
def LRU.Contains (c : LRU) (k : String) : Bool :=
  (findEntry c.entries k).isSome

/-- `simplelru` `Get`: on a hit, move the entry to the front
(most-recently-used) and return its value; on a miss, return nothing and
leave the cache unchanged. -/
def LRU.Get (c : LRU) (k : String) : Option String × LRU :=
  match findEntry c.entries k with
  | some e => (some e.2, LRU.mk c.capacity (e :: removeKey c.entries k))
  | none => (none, c)

/-- `simplelru` `Add`: overwrite-and-promote when the key exists; otherwise
add at the front and, when the length now exceeds the capacity, evict the
least-recently-used (last) entry. The returned flag reports an eviction. -/
def LRU.Add (c : LRU) (k v : String) : LRU × Bool :=
  match findEntry c.entries k with
  | some _ => (LRU.mk c.capacity ((k, v) :: removeKey c.entries k), false)
  | none =>
      let es := (k, v) :: c.entries
      if es.length > c.capacity then (LRU.mk c.capacity es.dropLast, true)
      else (LRU.mk c.capacity es, false)

/-- The identity middleware body from `main`: on `Contains` hit, `Get` the
cached identity (the Go zero value `""` stands in for the unreachable
hit-then-miss branch); on miss, store the freshly generated identity
(`uuid.New().String()`, passed in as `fresh`). Returns the resolved
identity and the updated cache. -/
def resolve (cache : LRU) (fresh ip : String) : String × LRU :=
  if cache.Contains ip then
    match cache.Get ip with
    | (some v, c2) => (v, c2)
    | (none, c2) => ("", c2)
  else
    (fresh, (cache.Add ip fresh).1)

/-- Decimal digit value, used by the `strconv.ParseInt` embedding. -/
def digitVal (ch : Char) : Option Nat :=
  if '0' ≤ ch ∧ ch ≤ '9' then some (ch.toNat - '0'.toNat) else none

/-- Accumulate base-10 digits; any non-digit is a syntax error. -/
def parseDigitsFrom (acc : Nat) : List Char → Option Nat
  | [] => some acc
  | ch :: rest =>
      match digitVal ch with
      | some d => parseDigitsFrom (acc * 10 + d) rest
      | none => none

/-- At least one digit is required. -/
def parseDigits : List Char → Option Nat
  | [] => none
  | ch :: rest => parseDigitsFrom 0 (ch :: rest)

/-- `strconv.ParseInt(s, 10, 64)`: returns the value and an ok flag.
Syntax errors yield `(0, false)`; out-of-range values are clamped to the
int64 bounds with the ok flag false, as Go's range error does. -/
def goParseInt64 (s : String) : Int × Bool :=
  match s.data with
  | [] => (0, false)
  | ch :: rest =>
      let signed : Bool × List Char :=
        if ch = '-' then (true, rest)
        else if ch = '+' then (false, rest)
        else (false, ch :: rest)
      match parseDigits signed.2 with
      | none => (0, false)
      | some n =>
          if signed.1 then
            if (n : Int) > 2 ^ 63 then (-(2 ^ 63), false) else (-(n : Int), true)
          else
            if (n : Int) > 2 ^ 63 - 1 then (2 ^ 63 - 1, false) else ((n : Int), true)

/-- `simplelru.NewLRU`: a non-positive size is a constructor error (`none`);
otherwise an empty cache of that capacity. -/
def NewLRU (size : Int) : Option LRU :=
  if size ≤ 0 then none else some (LRU.mk size.toNat [])

/-- The `CACHE_SIZE` startup fragment of `main`: an empty environment value
defaults to 100; otherwise `strconv.ParseInt` is called with its error
discarded (so an unparsable string becomes 0), and `simplelru.NewLRU` is
called with its error discarded too. The code has no rejection branch:
startup always proceeds to serving, with a nil cache when `NewLRU` errored. -/
def cacheStartup (cacheSizeStr : String) : Int × Option LRU :=
  let cacheSize : Int := if cacheSizeStr = "" then 100 else (goParseInt64 cacheSizeStr).1
  (cacheSize, NewLRU cacheSize)

/-- Modelled from the spec: the `model` package (referenced by `main` as
`model.ErrorResponse` and `model.HealthCheckResponse`) is not among the
provided sources; its shape is taken from the spec's response bodies
(timestamp + message, and timestamp + status) and `main`'s field usage.
Timestamps are abstract instants (`Nat`). -/
inductive Body where
  | empty
  | errorResponse (timeStamp : Nat) (message : String)
  | healthResponse (timeStamp : Nat) (status : String)
deriving DecidableEq

/-- The rejection message literal from `main`'s limiter configuration. -/
def rejectionMessage : String := "Too many requests. Maybe you should slow down? 🤓"

/-- The per-request context threaded through the middleware chain: the
request line data, the response under construction, the fiber `Locals`
bag, and the process-wide state touched by the chain (metric registry,
identity cache, the `opsProcessed` counter). `panicked` records a Go
panic from a failed type assertion; no modelled run sets it. -/
structure Ctx where
  reqMethod : String
  reqPath : String
  reqIP : String
  respHeaders : List (String × String)
  locals : List (String × String)
  respBody : Body
  status : Nat
  handlerRan : Bool
  registry : Registry
  cache : LRU
  opsProcessed : Nat
  panicked : Bool

/-- `pprof.New()`: profiling middleware, transparent on non-pprof paths. -/
def pprofStage (next : Ctx → Ctx) (c : Ctx) : Ctx := next c

/-- The limiter middleware: the sliding-window accept/reject decision is the
external collaborator, passed in as `reject`. On reject, `LimitReached`
runs: it writes the structured error body and never calls the rest of the
chain. On accept, the chain continues. -/
def limiterStage (reject : Bool) (now : Nat) (next : Ctx → Ctx) (c : Ctx) : Ctx :=
  if reject then { c with respBody := Body.errorResponse now rejectionMessage }
  else next c

/-- The Zipkin middleware: stores the tracer and root span in `Locals`,
runs the chain, and finishes the span (span emission flows to the external
sink and is not modelled). -/
def zipkinStage (next : Ctx → Ctx) (c : Ctx) : Ctx :=
  next { c with locals := ("tracer", "tracer") :: ("parentSpan", c.reqPath) :: c.locals }

/-- `requestid.New()`: sets the request-id response header and the
`requestid` local to the identifier generated or propagated for this
request, then continues the chain. -/
def requestidStage (rid : String) (next : Ctx → Ctx) (c : Ctx) : Ctx :=
  next { c with
    respHeaders := ("X-Request-ID", rid) :: c.respHeaders,
    locals := ("requestid", rid) :: c.locals }

/-- The identity middleware: resolve the client IP through the LRU cache
(`fresh` is the `uuid.New().String()` value drawn on a miss) and record the
identity in `Locals`. -/
def identityStage (fresh : String) (next : Ctx → Ctx) (c : Ctx) : Ctx :=
  let r := resolve c.cache fresh c.reqIP
  next { c with cache := r.2, locals := ("userId", r.1) :: c.locals }

/-- The logging/metrics middleware, after-`Next` part: once the downstream
chain returns, increment `opsProcessed`, publish the per-route counter, the
millisecond histogram observation and the microsecond histogram observation
(`ms` and `micros` are the measured elapsed durations). A failed type
assertion inside a publish is a Go panic (`panicked`). -/
def loggingStage (ms micros : Nat) (next : Ctx → Ctx) (c : Ctx) : Ctx :=
  let c1 := next c
  if c1.panicked then c1 else
  let c2 := { c1 with opsProcessed := c1.opsProcessed + 1 }
  match PublishCounter c2.registry HttpRequestCountMetricName c2.reqMethod c2.reqPath with
  | none => { c2 with panicked := true }
  | some r1 =>
    match GetHistogram r1 HttpRequestDurationMetricName c2.reqMethod c2.reqPath ms with
    | none => { c2 with registry := r1, panicked := true }
    | some r2 =>
      match GetHistogram r2 HttpRequestDurationMicroMetricName c2.reqMethod c2.reqPath micros with
      | none => { c2 with registry := r2, panicked := true }
      | some r3 => { c2 with registry := r3 }

/-- The span-tagging middleware: tags the root span before and after the
chain; tags flow to the external tracing sink and are not modelled. -/
def spanTagStage (next : Ctx → Ctx) (c : Ctx) : Ctx := next c

/-- The `GET /health` handler: marks the handler as run, writes the health
body, and `SendStatus(200)`. -/
def healthHandler (now : Nat) (c : Ctx) : Ctx :=
  { c with handlerRan := true, respBody := Body.healthResponse now "OK", status := 200 }

/-- The middleware chain exactly in `main`'s registration order: pprof,
limiter, Zipkin, requestid, identity cache, logging/metrics, span tags,
then the route handler. -/
def runPipeline (reject : Bool) (rid fresh : String) (now ms micros : Nat) (c0 : Ctx) : Ctx :=
  pprofStage
    (limiterStage reject now
      (zipkinStage
        (requestidStage rid
          (identityStage fresh
            (loggingStage ms micros
              (spanTagStage (healthHandler now)))))))
    c0

/-- A fresh request context for method/path/IP against the given
process-wide registry and cache. -/
def initCtx (method path ip : String) (reg : Registry) (cache : LRU) : Ctx :=
  { reqMethod := method, reqPath := path, reqIP := ip,
    respHeaders := [], locals := [], respBody := Body.empty, status := 200,
    handlerRan := false, registry := reg, cache := cache,
    opsProcessed := 0, panicked := false }

/-- The registry as `metricPublisher.Initialize(app)` builds it from the
explicitly registered GET routes of `main` (`/metrics` and `/health`). -/
def brokerRegistry : Registry :=
  Initialize [] [("GET", "/metrics"), ("GET", "/health")]

/-- Every element kept by a filter satisfies the filtering predicate. -/
theorem all_filter_self (p : Char → Bool) (l : List Char) : (l.filter p).all p = true := by
  induction l with
  | nil => rfl
  | cons x xs ih => cases h : p x <;> simp [List.filter_cons, h, ih]

/-- Filtering twice with the same predicate equals filtering once. -/
theorem filter_self_idem (p : Char → Bool) (l : List Char) :
    (l.filter p).filter p = l.filter p := by
  induction l with
  | nil => rfl
  | cons x xs ih => cases h : p x <;> simp [List.filter_cons, h, ih]

/-- Claim C9: metric-key normalization is charset-clean and idempotent — for
any method and path the derived key contains only characters of the allowed
identifier charset `[_A-Za-z]`, re-applying the normalization to its own
output returns it unchanged, and in particular method `GET`, path `/health`
always derives the key `GET_health`. -/
theorem metricKeyNormalizationIdempotent (method path : String) :
    (GetMetricName method path).data.all isIdentChar = true
    ∧ stripNonIdent (GetMetricName method path) = GetMetricName method path
    ∧ GetMetricName "GET" "/health" = "GET_health" := by
  refine ⟨?_, ?_, by decide⟩
  · exact all_filter_self isIdentChar (method ++ "_" ++ path).data
  · exact congrArg String.mk (filter_self_idem isIdentChar (method ++ "_" ++ path).data)

/-- Claim C10: normalization is not injective — the distinct routes
`GET /v1` and `GET /v2` derive the same metric key, and publishing a
counter for `GET /v2` against a registry initialized for `GET /v1` alone
increments the counter registered for `GET /v1`. -/
theorem metricKeyCollision :
    GetMetricName "GET" "/v1" = GetMetricName "GET" "/v2"
    ∧ ("/v1" : String) ≠ "/v2"
    ∧ PublishCounter (Initialize [] [("GET", "/v1")]) HttpRequestCountMetricName "GET" "/v2"
        = some [("http_request_duration_ms_GET_v", Metric.histogram defaultBuckets []),
                ("http_request_count_GET_v", Metric.counter 1)]
    ∧ lookupMetric [("http_request_duration_ms_GET_v", Metric.histogram defaultBuckets []),
                    ("http_request_count_GET_v", Metric.counter 1)]
        (HttpRequestCountMetricName ++ "_" ++ GetMetricName "GET" "/v1")
        = some (Metric.counter 1) := by
  refine ⟨by decide, by decide, by decide, by decide⟩

/-- Claim C3 (the code evaluated at the failing inputs): the `CACHE_SIZE`
startup fragment accepts an unparsable capacity as 0 and a negative one
as given, in both cases discarding the `NewLRU` constructor error and
proceeding with no cache; only the empty value defaults to a working
capacity-100 cache. There is no rejection path. -/
theorem cacheStartupAcceptsBadCapacity :
    cacheStartup "abc" = (0, none)
    ∧ cacheStartup "-5" = (-5, none)
    ∧ cacheStartup "" = (100, some (LRU.mk 100 [])) := by
  refine ⟨by decide, by decide, by decide⟩

/-- A found cache entry carries the searched key. -/
theorem findEntry_key : ∀ (l : List (String × String)) (k : String) (e : String × String),
    findEntry l k = some e → e.1 = k := by
  intro l k e h
  induction l with
  | nil => simp [findEntry] at h
  | cons x xs ih =>
      by_cases hx : x.1 = k
      · simp only [findEntry, if_pos hx] at h
        cases h
        exact hx
      · simp only [findEntry, if_neg hx] at h
        exact ih h

/-- After a resolve on a cache of capacity at least 1, the resolved key sits
at the front of the recency list (most-recently-used) paired with the
returned identity. -/
theorem resolve_head (cache : LRU) (fresh k : String) (hcap : 1 ≤ cache.capacity) :
    (resolve cache fresh k).2.entries.head? = some (k, (resolve cache fresh k).1) := by
  unfold resolve LRU.Contains LRU.Get LRU.Add
  cases hf : findEntry cache.entries k with
  | some e =>
      have hk := findEntry_key cache.entries k e hf
      simp [hf, ← hk]
  | none =>
      simp only [hf, Option.isSome_none, Bool.false_eq_true, if_false]
      cases hE : cache.entries with
      | nil =>
          have : ¬ (1 > cache.capacity) := by omega
          simp [hE, this]
      | cons y ys =>
          simp only [hE, List.length_cons, gt_iff_lt, List.dropLast]
          split <;> simp

/-- A resolve on a cache whose most-recently-used entry is `(k, v)` is a hit
returning `v` and keeping `(k, v)` most-recently-used. -/
theorem resolve_hit_of_head (cache : LRU) (fresh k v : String)
    (h : cache.entries.head? = some (k, v)) :
    (resolve cache fresh k).1 = v
    ∧ (resolve cache fresh k).2.entries.head? = some (k, v) := by
  cases hE : cache.entries with
  | nil => rw [hE] at h; simp at h
  | cons x xs =>
      rw [hE] at h
      simp only [List.head?_cons, Option.some.injEq] at h
      subst h
      unfold resolve LRU.Contains LRU.Get
      simp [hE, findEntry]

/-- Claim C6: for a cache of capacity at least 1, two successive resolutions
of the same client key return the same identity both times, and the hit
leaves the entry most-recently-used (at the head of the recency list). -/
theorem resolveIdentityStable (cache : LRU) (f1 f2 k : String) (hcap : 1 ≤ cache.capacity) :
    (resolve (resolve cache f1 k).2 f2 k).1 = (resolve cache f1 k).1
    ∧ (resolve (resolve cache f1 k).2 f2 k).2.entries.head?
        = some (k, (resolve cache f1 k).1) :=
  resolve_hit_of_head (resolve cache f1 k).2 f2 k (resolve cache f1 k).1
    (resolve_head cache f1 k hcap)

/-- Witness for C6 at a concrete cache of capacity 2 holding one entry. -/
theorem resolveIdentityStableWitness :
    (resolve (resolve (LRU.mk 2 [("x", "v0")]) "u1" "k").2 "u2" "k").1
      = (resolve (LRU.mk 2 [("x", "v0")]) "u1" "k").1
    ∧ (resolve (resolve (LRU.mk 2 [("x", "v0")]) "u1" "k").2 "u2" "k").2.entries.head?
      = some ("k", (resolve (LRU.mk 2 [("x", "v0")]) "u1" "k").1) :=
  resolveIdentityStable (LRU.mk 2 [("x", "v0")]) "u1" "u2" "k" (by decide)

/-- Claim C5: with capacity 2 and distinct keys `A`, `B`, `C`, resolving
`A`, `B`, `C` in order (with fresh identities `a`, `b`, `c`) evicts `A`;
`B` and `C` then still resolve to their original identities, and a
subsequent resolve of `A` returns the newly drawn identity `a2`, different
from `A`'s original identity `a`. -/
theorem lruEvictionFreshIdentity (A B C a b c a2 f1 f2 : String)
    (hAB : A ≠ B) (hAC : A ≠ C) (hBC : B ≠ C) (hfresh : a2 ≠ a) :
    (resolve (LRU.mk 2 []) a A).1 = a
    ∧ (resolve (resolve (LRU.mk 2 []) a A).2 b B).1 = b
    ∧ (resolve (resolve (resolve (LRU.mk 2 []) a A).2 b B).2 c C).1 = c
    ∧ LRU.Contains (resolve (resolve (resolve (LRU.mk 2 []) a A).2 b B).2 c C).2 A = false
    ∧ (resolve (resolve (resolve (resolve (LRU.mk 2 []) a A).2 b B).2 c C).2 f1 B).1 = b
    ∧ (resolve (resolve (resolve (resolve (resolve (LRU.mk 2 []) a A).2 b B).2 c C).2
        f1 B).2 f2 C).1 = c
    ∧ (resolve (resolve (resolve (resolve (resolve (resolve (LRU.mk 2 []) a A).2 b B).2
        c C).2 f1 B).2 f2 C).2 a2 A).1 = a2
    ∧ (resolve (resolve (resolve (resolve (resolve (resolve (LRU.mk 2 []) a A).2 b B).2
        c C).2 f1 B).2 f2 C).2 a2 A).1 ≠ a := by
  have e1 : resolve (LRU.mk 2 []) a A = (a, LRU.mk 2 [(A, a)]) := rfl
  have e2 : resolve (LRU.mk 2 [(A, a)]) b B = (b, LRU.mk 2 [(B, b), (A, a)]) := by
    simp [resolve, LRU.Contains, LRU.Get, LRU.Add, findEntry, hAB]
  have e3 : resolve (LRU.mk 2 [(B, b), (A, a)]) c C = (c, LRU.mk 2 [(C, c), (B, b)]) := by
    simp [resolve, LRU.Contains, LRU.Get, LRU.Add, findEntry, removeKey, hAC, hBC,
      List.dropLast]
  have e4 : resolve (LRU.mk 2 [(C, c), (B, b)]) f1 B = (b, LRU.mk 2 [(B, b), (C, c)]) := by
    simp [resolve, LRU.Contains, LRU.Get, LRU.Add, findEntry, removeKey, Ne.symm hBC]
  have e5 : resolve (LRU.mk 2 [(B, b), (C, c)]) f2 C = (c, LRU.mk 2 [(C, c), (B, b)]) := by
    simp [resolve, LRU.Contains, LRU.Get, LRU.Add, findEntry, removeKey, hBC]
  have e6 : resolve (LRU.mk 2 [(C, c), (B, b)]) a2 A = (a2, LRU.mk 2 [(A, a2), (C, c)]) := by
    simp [resolve, LRU.Contains, LRU.Get, LRU.Add, findEntry, removeKey, Ne.symm hAC,
      Ne.symm hAB, List.dropLast]
  have hcon : LRU.Contains (LRU.mk 2 [(C, c), (B, b)]) A = false := by
    simp [LRU.Contains, findEntry, Ne.symm hAC, Ne.symm hAB]
  rw [e1]
  simp only []
  rw [e2]
  simp only []
  rw [e3]
  simp only []
  rw [e4]
  simp only []
  rw [e5]
  simp only []
  rw [e6]
  simp [hcon, hfresh]

/-- Witness for C5 at concrete keys and identities. -/
theorem lruEvictionFreshIdentityWitness :
    (resolve (LRU.mk 2 []) "a" "A").1 = "a"
    ∧ (resolve (resolve (LRU.mk 2 []) "a" "A").2 "b" "B").1 = "b"
    ∧ (resolve (resolve (resolve (LRU.mk 2 []) "a" "A").2 "b" "B").2 "c" "C").1 = "c"
    ∧ LRU.Contains (resolve (resolve (resolve (LRU.mk 2 []) "a" "A").2 "b" "B").2
        "c" "C").2 "A" = false
    ∧ (resolve (resolve (resolve (resolve (LRU.mk 2 []) "a" "A").2 "b" "B").2 "c" "C").2
        "f1" "B").1 = "b"
    ∧ (resolve (resolve (resolve (resolve (resolve (LRU.mk 2 []) "a" "A").2 "b" "B").2
        "c" "C").2 "f1" "B").2 "f2" "C").1 = "c"
    ∧ (resolve (resolve (resolve (resolve (resolve (resolve (LRU.mk 2 []) "a" "A").2
        "b" "B").2 "c" "C").2 "f1" "B").2 "f2" "C").2 "a2" "A").1 = "a2"
    ∧ (resolve (resolve (resolve (resolve (resolve (resolve (LRU.mk 2 []) "a" "A").2
        "b" "B").2 "c" "C").2 "f1" "B").2 "f2" "C").2 "a2" "A").1 ≠ "a" :=
  lruEvictionFreshIdentity "A" "B" "C" "a" "b" "c" "a2" "f1" "f2"
    (by decide) (by decide) (by decide) (by decide)

/-- Replacing the value under a key leaves key membership unchanged for
every key. -/
theorem hasKey_setMetric (reg : Registry) (k : String) (m : Metric) (k2 : String) :
    hasKey (setMetric reg k m) k2 = hasKey reg k2 := by
  induction reg with
  | nil => rfl
  | cons e rest ih =>
      show hasKey (if e.1 = k then (e.1, m) :: rest else e :: setMetric rest k m) k2
        = hasKey (e :: rest) k2
      by_cases h : e.1 = k
      · rw [if_pos h]
        show (if e.1 = k2 then some m else lookupMetric rest k2).isSome
          = (if e.1 = k2 then some e.2 else lookupMetric rest k2).isSome
        by_cases h2 : e.1 = k2
        · rw [if_pos h2, if_pos h2]
          rfl
        · rw [if_neg h2, if_neg h2]
      · rw [if_neg h]
        show (if e.1 = k2 then some e.2 else lookupMetric (setMetric rest k m) k2).isSome
          = (if e.1 = k2 then some e.2 else lookupMetric rest k2).isSome
        by_cases h2 : e.1 = k2
        · rw [if_pos h2, if_pos h2]
        · rw [if_neg h2, if_neg h2]
          exact ih

/-- A successful counter publish replaces a present counter, so the key is
already a member and membership is untouched. -/
theorem hasKey_publishCounter (reg reg2 : Registry) (pfx method path : String)
    (h : PublishCounter reg pfx method path = some reg2) (k : String) :
    hasKey reg2 k = hasKey reg k := by
  unfold PublishCounter at h
  cases hl : lookupMetric reg (pfx ++ "_" ++ GetMetricName method path) with
  | none =>
      rw [hl] at h
      cases h
      rfl
  | some m =>
      rw [hl] at h
      cases m with
      | counter n =>
          have h2 := Option.some.inj h
          subst h2
          unfold insertMetric
          have hk : hasKey reg (pfx ++ "_" ++ GetMetricName method path) = true := by
            unfold hasKey
            rw [hl]
            rfl
          rw [hk]
          simp only [if_true]
          exact hasKey_setMetric reg _ _ k
      | histogram bs obs => exact Option.noConfusion h

/-- A successful histogram publish replaces a present histogram, so key
membership is untouched. -/
theorem hasKey_getHistogram (reg reg2 : Registry) (pfx method path : String) (v : Nat)
    (h : GetHistogram reg pfx method path v = some reg2) (k : String) :
    hasKey reg2 k = hasKey reg k := by
  unfold GetHistogram at h
  cases hl : lookupMetric reg (pfx ++ "_" ++ GetMetricName method path) with
  | none =>
      rw [hl] at h
      cases h
      rfl
  | some m =>
      rw [hl] at h
      cases m with
      | counter n => exact Option.noConfusion h
      | histogram bs obs =>
          have h2 := Option.some.inj h
          subst h2
          unfold insertMetric
          have hk : hasKey reg (pfx ++ "_" ++ GetMetricName method path) = true := by
            unfold hasKey
            rw [hl]
            rfl
          rw [hk]
          simp only [if_true]
          exact hasKey_setMetric reg _ _ k

/-- Claim C7: the metric key set is fixed by initialization and never grows
at request time — a publish against an absent key returns the registry
unchanged without error, and any publish that returns (counter increment or
histogram observation) preserves key membership for every key. -/
theorem publishPreservesKeys (reg : Registry) (pfx method path : String) (v : Nat) :
    (lookupMetric reg (pfx ++ "_" ++ GetMetricName method path) = none →
        PublishCounter reg pfx method path = some reg
        ∧ GetHistogram reg pfx method path v = some reg)
    ∧ (∀ reg2, PublishCounter reg pfx method path = some reg2 →
        ∀ k, hasKey reg2 k = hasKey reg k)
    ∧ (∀ reg2, GetHistogram reg pfx method path v = some reg2 →
        ∀ k, hasKey reg2 k = hasKey reg k) := by
  refine ⟨?_, ?_, ?_⟩
  · intro h
    unfold PublishCounter GetHistogram
    rw [h]
    exact ⟨rfl, rfl⟩
  · intro reg2 h k
    exact hasKey_publishCounter reg reg2 pfx method path h k
  · intro reg2 h k
    exact hasKey_getHistogram reg reg2 pfx method path v h k

/-- Witness for C7: the microsecond prefix is absent from the broker
registry, so both publishes are no-ops there; and a successful counter
publish and histogram publish each preserve membership of a sample key. -/
theorem publishPreservesKeysWitness :
    (PublishCounter brokerRegistry HttpRequestDurationMicroMetricName "GET" "/health"
        = some brokerRegistry
      ∧ GetHistogram brokerRegistry HttpRequestDurationMicroMetricName "GET" "/health" 3
        = some brokerRegistry)
    ∧ hasKey (insertMetric brokerRegistry "http_request_count_GET_health" (Metric.counter 1))
        "http_request_duration_ms_GET_metrics"
      = hasKey brokerRegistry "http_request_duration_ms_GET_metrics"
    ∧ hasKey (insertMetric brokerRegistry "http_request_duration_ms_GET_health"
          (Metric.histogram defaultBuckets [3])) "http_request_count_GET_health"
      = hasKey brokerRegistry "http_request_count_GET_health" := by
  refine ⟨(publishPreservesKeys brokerRegistry HttpRequestDurationMicroMetricName
    "GET" "/health" 3).1 (by decide), ?_, ?_⟩
  · exact (publishPreservesKeys brokerRegistry HttpRequestCountMetricName
      "GET" "/health" 3).2.1 _ (by decide) _
  · exact (publishPreservesKeys brokerRegistry HttpRequestDurationMetricName
      "GET" "/health" 3).2.2 _ (by decide) _

/-- Claim C8: when admission control rejects, the pipeline responds with the
structured rejection body (timestamp plus the limiter message), the
downstream handler never runs, and the handler-completion metric increments
are skipped. -/
theorem rejectionStructuredNoHandler (rid fresh : String) (now ms micros : Nat) :
    (runPipeline true rid fresh now ms micros
      (initCtx "GET" "/health" "1.2.3.4" brokerRegistry (LRU.mk 100 []))).respBody
      = Body.errorResponse now rejectionMessage
    ∧ (runPipeline true rid fresh now ms micros
      (initCtx "GET" "/health" "1.2.3.4" brokerRegistry (LRU.mk 100 []))).handlerRan = false
    ∧ (runPipeline true rid fresh now ms micros
      (initCtx "GET" "/health" "1.2.3.4" brokerRegistry (LRU.mk 100 []))).opsProcessed = 0
    ∧ (runPipeline true rid fresh now ms micros
      (initCtx "GET" "/health" "1.2.3.4" brokerRegistry (LRU.mk 100 []))).registry
      = brokerRegistry :=
  ⟨rfl, rfl, rfl, rfl⟩

/-- Counterexample to claim C4 as stated: a request rejected by admission
control produces a response with no headers at all — in particular no
request-id header — because the limiter middleware is installed before the
requestid middleware in `main`. -/
theorem rejectedResponseLacksRequestId :
    (runPipeline true "rid-1" "uid-1" 7 1 1000
      (initCtx "GET" "/health" "1.2.3.4" brokerRegistry (LRU.mk 100 []))).respHeaders = []
    ∧ ((runPipeline true "rid-1" "uid-1" 7 1 1000
      (initCtx "GET" "/health" "1.2.3.4" brokerRegistry (LRU.mk 100 []))).respHeaders.find?
        (fun h => h.1 == "X-Request-ID")) = none :=
  ⟨rfl, rfl⟩

/-- Claim C4 as amended: every response to a request that passes admission
control carries the request-id header, sourced from the identifier
generated or propagated for that request; responses produced by admission
rejection are written before the requestid middleware runs and carry no
request-id header. -/
theorem requestIdHeaderOnAcceptedOnly (rid fresh : String) (now ms micros : Nat) :
    (runPipeline false rid fresh now ms micros
      (initCtx "GET" "/health" "1.2.3.4" brokerRegistry (LRU.mk 100 []))).respHeaders
      = [("X-Request-ID", rid)]
    ∧ (runPipeline true rid fresh now ms micros
      (initCtx "GET" "/health" "1.2.3.4" brokerRegistry (LRU.mk 100 []))).respHeaders = [] :=
  ⟨rfl, rfl⟩

/-- Counterexample to claim C1 as stated: after a full accepted request on
`GET /health`, the microsecond duration observation (5000) was recorded
into no registered histogram — the registry holds no metric under the
microsecond key, and no histogram in it contains the observation — so it is
false that both duration observations land in histograms registered for the
route. -/
theorem microObservationDropped :
    lookupMetric (runPipeline false "rid-1" "uid-1" 7 5 5000
        (initCtx "GET" "/health" "1.2.3.4" brokerRegistry (LRU.mk 100 []))).registry
      "http_request_duration_micro_GET_health" = none
    ∧ ((runPipeline false "rid-1" "uid-1" 7 5 5000
        (initCtx "GET" "/health" "1.2.3.4" brokerRegistry (LRU.mk 100 []))).registry.all
        (fun e => match e.2 with
          | Metric.histogram _ obs => !(obs.contains 5000)
          | Metric.counter _ => true)) = true := by
  refine ⟨by decide, by decide⟩

/-- Claim C1 as amended: for every request whose handler returns, the
pipeline publishes, after the handler ran, a per-route counter increment
and two duration observations; the counter increment and the millisecond
observation are recorded into the metrics registered for the route
(buckets {1,2,4,8,10,25,50,100,250,500,1000}), while the microsecond
observation targets a key `Initialize` never registers and is silently
dropped. -/
theorem pipelineMetricsAfterHandler (rid fresh : String) (now ms micros : Nat) :
    (runPipeline false rid fresh now ms micros
      (initCtx "GET" "/health" "1.2.3.4" brokerRegistry (LRU.mk 100 []))).handlerRan = true
    ∧ (runPipeline false rid fresh now ms micros
      (initCtx "GET" "/health" "1.2.3.4" brokerRegistry (LRU.mk 100 []))).opsProcessed = 1
    ∧ lookupMetric (runPipeline false rid fresh now ms micros
        (initCtx "GET" "/health" "1.2.3.4" brokerRegistry (LRU.mk 100 []))).registry
      "http_request_count_GET_health" = some (Metric.counter 1)
    ∧ lookupMetric (runPipeline false rid fresh now ms micros
        (initCtx "GET" "/health" "1.2.3.4" brokerRegistry (LRU.mk 100 []))).registry
      "http_request_duration_ms_GET_health" = some (Metric.histogram defaultBuckets [ms])
    ∧ lookupMetric (runPipeline false rid fresh now ms micros
        (initCtx "GET" "/health" "1.2.3.4" brokerRegistry (LRU.mk 100 []))).registry
      "http_request_duration_micro_GET_health" = none :=
  ⟨rfl, rfl, rfl, rfl, rfl⟩
